import Mathlib

/-!
Verification of the KV-router scheduler (src/lib/llm/src/kv_router/scheduler.rs).

Modelling conventions:
* `f64`/`f32` arithmetic is modelled exactly over `ℚ`; all quantities that the
  scoring formula manipulates (weights, scores, cache usage) are rationals.
* Rust `HashMap` values are modelled as association lists `List (Int × _)`;
  iteration order of the map becomes the order of the list, and lookups take
  the first matching key.  `i64` worker ids are `Int`, `u64`/`usize`/`u32`
  counters are `Nat`, with an explicit `% 2 ^ 64` at the two `u64` additions
  where wrap-around could occur.
* The random tie-break draw `rng.random_range(0..len)` is modelled by an extra
  `rng : Nat` argument reduced modulo the length; properties quantify over it.
* The tokio dispatch loop is modelled as a recursive function over the list of
  future snapshot updates delivered by the watch channel; the panic in
  `process_worker_selection` (`expect("worker not found")`) is modelled by an
  `Option` result, `none` meaning the panic.
-/

namespace KvRouter

/-- Limit for `u64` arithmetic: additions on `u64` fields wrap at this bound. -/
def U64LIMIT : Nat := 2 ^ 64

/-- Per-worker live load metrics (`ForwardPassMetrics`); the scheduler reads
`num_requests_waiting` and `gpu_cache_usage_perc` and predictively updates
`num_requests_waiting` and `kv_active_blocks`. -/
structure ForwardPassMetrics where
  num_requests_waiting : Nat
  gpu_cache_usage_perc : ℚ
  kv_active_blocks : Nat
deriving DecidableEq

/-- An endpoint entry of the snapshot (`Endpoint`): identity plus metrics. -/
structure Endpoint where
  name : String
  subject : String
  data : ForwardPassMetrics
deriving DecidableEq

/-- The worker-state snapshot (`ProcessedEndpoints`): the `HashMap<i64, Endpoint>`
modelled as an association list in iteration order. -/
structure ProcessedEndpoints where
  endpoints : List (Int × Endpoint)
deriving DecidableEq

/-- Per-request overlap scores (`OverlapScores`): `HashMap<WorkerId, u32>`
modelled as an association list. -/
structure OverlapScores where
  scores : List (Int × Nat)
deriving DecidableEq

/-- A pending scheduling request (`SchedulingRequest`); the oneshot response
channel is modelled separately (see `schedule`). -/
structure SchedulingRequest where
  isl_tokens : Nat
  overlap : OverlapScores
deriving DecidableEq

/-- The result of a successful selection (`WorkerSelectionResult`). -/
structure WorkerSelectionResult where
  worker_id : Int
  required_blocks : Nat
  overlap_blocks : Nat
deriving DecidableEq

/-- Telemetry record (`KVHitRateEvent`). -/
structure KVHitRateEvent where
  worker_id : Int
  isl_blocks : Nat
  overlap_blocks : Nat
deriving DecidableEq

/-- Error taxonomy (`KvSchedulerError`). -/
inductive KvSchedulerError where
  | NoEndpoints
  | AllWorkersBusy
  | SubscriberShutdown
deriving DecidableEq

/-- Scoring weights (`KvRouterConfig`), `f64` weights modelled as `ℚ`. -/
structure KvRouterConfig where
  overlap_score_weight : ℚ
  gpu_cache_usage_weight : ℚ
  waiting_requests_weight : ℚ
deriving DecidableEq

/-- First-match association-list lookup, the model of `HashMap::get`. -/
def alookup {β : Type} (k : Int) : List (Int × β) → Option β
  | [] => none
  | p :: t => if p.1 = k then some p.2 else alookup k t

/-- Phase 1 of `select_worker` (lines 264-269): for each endpoint whose id has
an overlap entry, record `score = overlap * block_size / isl_tokens`. -/
def workerScores (request : SchedulingRequest) (block_size : Nat)
    (endpoints : List (Int × Endpoint)) : List (Int × ℚ) :=
  endpoints.filterMap fun p =>
    match alookup p.1 request.overlap.scores with
    | some s => some (p.1, (s : ℚ) * (block_size : ℚ) / (request.isl_tokens : ℚ))
    | none => none

/-- Phase 1 of `select_worker` (line 272): maximum `num_requests_waiting`. -/
def maxWaiting (endpoints : List (Int × Endpoint)) : Nat :=
  endpoints.foldl (fun m p => max m p.2.data.num_requests_waiting) 0

/-- The logit of one endpoint (lines 287-300):
`w_overlap * score - w_cache * gpu_cache_usage - w_waiting * normalized_waiting`. -/
def logitOf (cfg : KvRouterConfig) (scores : List (Int × ℚ)) (mw : Nat)
    (p : Int × Endpoint) : ℚ :=
  let score := (alookup p.1 scores).getD 0
  let gpu_cache_usage := p.2.data.gpu_cache_usage_perc
  let normalized_waiting :=
    if 0 < mw then (p.2.data.num_requests_waiting : ℚ) / (mw : ℚ) else 0
  cfg.overlap_score_weight * score - cfg.gpu_cache_usage_weight * gpu_cache_usage
    - cfg.waiting_requests_weight * normalized_waiting

/-- The logit `select_worker` assigns to an endpoint pair of a given snapshot. -/
def workerLogit (cfg : KvRouterConfig) (request : SchedulingRequest)
    (block_size : Nat) (endpoints : List (Int × Endpoint)) (p : Int × Endpoint) : ℚ :=
  logitOf cfg (workerScores request block_size endpoints) (maxWaiting endpoints) p

/-- One step of the best-logit tracking loop (lines 310-320): `none` models
`best_logit = NEG_INFINITY`, against which any finite logit compares Greater. -/
def bestStep (f : Int × Endpoint → ℚ) (acc : Option ℚ × List Int)
    (p : Int × Endpoint) : Option ℚ × List Int :=
  match acc.1 with
  | none => (some (f p), [p.1])
  | some b =>
    if b < f p then (some (f p), [p.1])
    else if f p = b then (acc.1, acc.2 ++ [p.1])
    else acc

/-- The best-logit tracking loop over the whole snapshot (lines 280-321). -/
def bestWorkers (f : Int × Endpoint → ℚ) (endpoints : List (Int × Endpoint)) :
    Option ℚ × List Int :=
  endpoints.foldl (bestStep f) (none, [])

/-- The selection among the tied best workers (lines 330-336): with a single
best worker it is returned directly and the draw is not consulted; otherwise
the `rng` draw indexes the tied list. -/
def chooseWorker (w : Int) (rest : List Int) (rng : Nat) : Int :=
  if rest = [] then w else (w :: rest).getD (rng % (w :: rest).length) 0

/-- `DefaultWorkerSelector::select_worker` (lines 248-350).  The `rng` argument
models the random draw of the tie-break branch; the non-tied branch ignores it.
The `assert!(request.isl_tokens > 0)` precondition is carried as a hypothesis
of the theorems instead (division by zero is total in `ℚ`). -/
def select_worker (cfg : KvRouterConfig) (workers : ProcessedEndpoints)
    (request : SchedulingRequest) (block_size : Nat) (rng : Nat) :
    Except KvSchedulerError WorkerSelectionResult :=
  if workers.endpoints.isEmpty then .error .NoEndpoints
  else
    match (bestWorkers
        (logitOf cfg (workerScores request block_size workers.endpoints)
          (maxWaiting workers.endpoints)) workers.endpoints).2 with
    | [] => .error .NoEndpoints
    | w :: rest =>
      .ok { worker_id := chooseWorker w rest rng
            required_blocks := max (request.isl_tokens / block_size) 1
            overlap_blocks :=
              (alookup (chooseWorker w rest rng) request.overlap.scores).getD 0 }

/-- Update every entry of the association list whose key matches (with distinct
keys this is the single entry `HashMap::get_mut` hands out). -/
def updateEndpoint (key : Int) (f : Endpoint → Endpoint) :
    List (Int × Endpoint) → List (Int × Endpoint) :=
  fun l => l.map fun p => if p.1 = key then (p.1, f p.2) else p

/-- The predictive mutation applied to the chosen endpoint (lines 214-219):
`num_requests_waiting += 1` and
`kv_active_blocks += required_blocks.saturating_sub(overlap_blocks)`, both
wrapping `u64` additions. -/
def applySelection (sel : WorkerSelectionResult) (ep : Endpoint) : Endpoint :=
  { ep with data :=
    { ep.data with
        num_requests_waiting := (ep.data.num_requests_waiting + 1) % U64LIMIT
        kv_active_blocks :=
          (ep.data.kv_active_blocks + (sel.required_blocks - sel.overlap_blocks)) % U64LIMIT } }

/-- `process_worker_selection` (lines 202-231).  `none` models the panic of
`.expect("worker not found")` when the selected id is absent; otherwise the
updated snapshot, the returned worker id and the emitted telemetry event. -/
def process_worker_selection (workers : ProcessedEndpoints)
    (selection : WorkerSelectionResult) :
    Option (ProcessedEndpoints × Int × KVHitRateEvent) :=
  match alookup selection.worker_id workers.endpoints with
  | none => none
  | some _ =>
    some (⟨updateEndpoint selection.worker_id (applySelection selection) workers.endpoints⟩,
      selection.worker_id,
      { worker_id := selection.worker_id, isl_blocks := selection.required_blocks,
        overlap_blocks := selection.overlap_blocks })

/-- Caller-visible fate of a request dequeued by the dispatch loop:
the loop either answers with a worker id (carrying the predictively updated
snapshot forward), terminates cleanly via `break outer` (request dropped, no
response), or crashes on the worker-not-found panic. -/
inductive DispatchOutcome where
  | answered (worker_id : Int) (snapshot : ProcessedEndpoints)
  | terminated
  | crashed
deriving DecidableEq

/-- The inner dispatch loop of `KvScheduler::start` (lines 143-170) for one
dequeued request.  `updates` is the list of future snapshots the watch channel
will deliver; an empty list means `endpoints_rx.changed()` fails (stream
closed), which breaks the outer loop. -/
def dispatchLoop
    (sel : ProcessedEndpoints → SchedulingRequest → Except KvSchedulerError WorkerSelectionResult)
    (snap : ProcessedEndpoints) (updates : List ProcessedEndpoints)
    (request : SchedulingRequest) : DispatchOutcome :=
  match sel snap request with
  | .ok selection =>
    match process_worker_selection snap selection with
    | some (snap2, wid, _ev) => .answered wid snap2
    | none => .crashed
  | .error .AllWorkersBusy =>
    match updates with
    | [] => .terminated
    | u :: rest => dispatchLoop sel u rest request
  | .error .NoEndpoints => .terminated
  | .error .SubscriberShutdown => .terminated

/-- `KvScheduler::schedule` (lines 179-198) as seen by one caller: `enqueued`
is whether `request_tx.send` succeeded, `response` is what arrives on the
oneshot channel (`none` when the sender side was dropped without answering).
Both failure modes are mapped to `SubscriberShutdown`. -/
def schedule (enqueued : Bool) (response : Option Int) :
    Except KvSchedulerError Int :=
  if enqueued then
    match response with
    | some worker_id => .ok worker_id
    | none => .error .SubscriberShutdown
  else .error .SubscriberShutdown

theorem alookup_updateEndpoint (key : Int) (f : Endpoint → Endpoint)
    (l : List (Int × Endpoint)) (k : Int) :
    alookup k (updateEndpoint key f l) =
      if k = key then (alookup k l).map f else alookup k l := by
  induction l with
  | nil => by_cases h : k = key <;> simp [updateEndpoint, alookup, h]
  | cons p t ih =>
    simp only [updateEndpoint, List.map_cons] at ih ⊢
    by_cases h1 : p.1 = key
    · by_cases h2 : p.1 = k
      · have hk : k = key := by rw [← h2, h1]
        simp [alookup, h2, hk]
      · have hk : ¬key = k := h1 ▸ h2
        have hk2 : ¬k = key := fun hh => hk hh.symm
        simp [alookup, h1, h2, hk, hk2, ih]
    · by_cases h2 : p.1 = k
      · have hk : ¬k = key := by rw [← h2]; exact h1
        simp [alookup, h1, h2, hk]
      · simp [alookup, h1, h2, ih]

/-- C8: for every request (and any configuration, block size and random draw),
`select_worker` on a snapshot with an empty endpoint map returns the
`NoEndpoints` error. -/
theorem select_worker_empty_noendpoints (cfg : KvRouterConfig)
    (request : SchedulingRequest) (block_size rng : Nat) :
    select_worker cfg ⟨[]⟩ request block_size rng = .error .NoEndpoints := rfl

/-- C3: every successful `select_worker` call returns
`required_blocks = max(1, isl_tokens / block_size)` (floor division, clamped to
at least one) and `overlap_blocks` equal to the chosen worker's entry in the
request's overlap map, defaulting to 0 when that worker is absent from it. -/
theorem select_worker_result_fields (cfg : KvRouterConfig)
    (workers : ProcessedEndpoints) (request : SchedulingRequest)
    (block_size rng : Nat) (r : WorkerSelectionResult)
    (_hbs : 0 < block_size)
    (h : select_worker cfg workers request block_size rng = .ok r) :
    r.required_blocks = max 1 (request.isl_tokens / block_size) ∧
    r.overlap_blocks = (alookup r.worker_id request.overlap.scores).getD 0 := by
  unfold select_worker at h
  split at h
  · cases h
  · split at h
    · cases h
    · cases h
      exact ⟨Nat.max_comm _ _, rfl⟩

/-- C2: after a successful selection of a worker present in the snapshot (and
absent `u64` wrap-around), `process_worker_selection` raises the chosen
entry's `num_requests_waiting` by exactly 1 and its `kv_active_blocks` by
exactly `max 0 (required_blocks - overlap_blocks)`, never a negative amount. -/
theorem process_worker_selection_mutation (workers : ProcessedEndpoints)
    (sel : WorkerSelectionResult) (ep : Endpoint)
    (hfind : alookup sel.worker_id workers.endpoints = some ep)
    (hw : ep.data.num_requests_waiting + 1 < U64LIMIT)
    (hk : ep.data.kv_active_blocks + (sel.required_blocks - sel.overlap_blocks) < U64LIMIT) :
    ∃ workers2 ev, process_worker_selection workers sel = some (workers2, sel.worker_id, ev) ∧
      alookup sel.worker_id workers2.endpoints = some (applySelection sel ep) ∧
      (applySelection sel ep).data.num_requests_waiting = ep.data.num_requests_waiting + 1 ∧
      ((applySelection sel ep).data.kv_active_blocks : ℤ) =
        (ep.data.kv_active_blocks : ℤ) +
          max 0 ((sel.required_blocks : ℤ) - (sel.overlap_blocks : ℤ)) := by
  refine ⟨⟨updateEndpoint sel.worker_id (applySelection sel) workers.endpoints⟩,
    ⟨sel.worker_id, sel.required_blocks, sel.overlap_blocks⟩, ?_, ?_, ?_, ?_⟩
  · unfold process_worker_selection
    rw [hfind]
  · rw [alookup_updateEndpoint, if_pos rfl, hfind]
    rfl
  · simpa [applySelection] using Nat.mod_eq_of_lt hw
  · have h2 : (ep.data.kv_active_blocks + (sel.required_blocks - sel.overlap_blocks)) % U64LIMIT
        = ep.data.kv_active_blocks + (sel.required_blocks - sel.overlap_blocks) :=
      Nat.mod_eq_of_lt hk
    simp only [applySelection, h2]
    push_cast
    omega

/-- C9: `process_worker_selection` returns the selected worker id, leaves every
other key's entry untouched, and rewrites the selected entry with
`applySelection`, which changes only `num_requests_waiting` and
`kv_active_blocks` (name, subject and `gpu_cache_usage_perc` are preserved). -/
theorem process_worker_selection_frame (workers workers2 : ProcessedEndpoints)
    (sel : WorkerSelectionResult) (wid : Int) (ev : KVHitRateEvent)
    (h : process_worker_selection workers sel = some (workers2, wid, ev)) :
    wid = sel.worker_id ∧
    (∀ k, k ≠ sel.worker_id → alookup k workers2.endpoints = alookup k workers.endpoints) ∧
    alookup sel.worker_id workers2.endpoints =
      (alookup sel.worker_id workers.endpoints).map (applySelection sel) ∧
    (∀ e, (applySelection sel e).name = e.name ∧
      (applySelection sel e).subject = e.subject ∧
      (applySelection sel e).data.gpu_cache_usage_perc = e.data.gpu_cache_usage_perc) := by
  unfold process_worker_selection at h
  split at h
  · cases h
  · cases h
    refine ⟨rfl, ?_, ?_, fun e => ⟨rfl, rfl, rfl⟩⟩
    · intro k hk
      rw [alookup_updateEndpoint, if_neg hk]
    · rw [alookup_updateEndpoint, if_pos rfl]

/-- C10: `process_worker_selection` hits its worker-not-found panic (modelled
by `none`) exactly when the selected id is not a key of the snapshot; under
the precondition that the id is present, the panic branch is unreachable. -/
theorem process_worker_selection_panic_iff (workers : ProcessedEndpoints)
    (sel : WorkerSelectionResult) :
    process_worker_selection workers sel = none ↔
      alookup sel.worker_id workers.endpoints = none := by
  unfold process_worker_selection
  cases h : alookup sel.worker_id workers.endpoints <;> simp

/-- C4: when the selector reports `AllWorkersBusy` for the dequeued request,
the dispatch loop does not surface the error: it waits for the next snapshot
update `u`, replaces its snapshot by it, and re-runs selection with the very
same still-pending request — the continuation is exactly the loop restarted at
`u` with `request` unchanged (neither dropped, re-queued nor duplicated). -/
theorem dispatchLoop_busy_retries
    (sel : ProcessedEndpoints → SchedulingRequest → Except KvSchedulerError WorkerSelectionResult)
    (snap u : ProcessedEndpoints) (updates : List ProcessedEndpoints)
    (request : SchedulingRequest)
    (h : sel snap request = .error .AllWorkersBusy) :
    dispatchLoop sel snap (u :: updates) request = dispatchLoop sel u updates request := by
  rw [dispatchLoop, h]

/-- C5: on any selector failure other than `AllWorkersBusy` the dispatch loop
terminates, dropping the in-flight request without a response; and `schedule`
maps both of the resulting caller-side failures — the enqueue failing because
the loop is gone, and the oneshot response channel being dropped unanswered —
to `SubscriberShutdown`. -/
theorem dispatchLoop_fatal_terminates
    (sel : ProcessedEndpoints → SchedulingRequest → Except KvSchedulerError WorkerSelectionResult)
    (snap : ProcessedEndpoints) (updates : List ProcessedEndpoints)
    (request : SchedulingRequest) (e : KvSchedulerError)
    (h : sel snap request = .error e) (hbusy : e ≠ .AllWorkersBusy) :
    dispatchLoop sel snap updates request = .terminated ∧
    (∀ response, schedule false response = .error .SubscriberShutdown) ∧
    schedule true none = .error .SubscriberShutdown := by
  refine ⟨?_, fun _ => rfl, rfl⟩
  cases e with
  | AllWorkersBusy => exact absurd rfl hbusy
  | NoEndpoints => cases updates <;> rw [dispatchLoop, h]
  | SubscriberShutdown => cases updates <;> rw [dispatchLoop, h]

theorem bestStep_ne (f : Int × Endpoint → ℚ) (acc : Option ℚ × List Int)
    (p : Int × Endpoint) (h : acc.1 = none ∨ acc.2 ≠ []) :
    (bestStep f acc p).1 ≠ none ∧ (bestStep f acc p).2 ≠ [] := by
  unfold bestStep
  cases hacc : acc.1 with
  | none => simp
  | some b =>
    have hne : acc.2 ≠ [] := by
      rcases h with h | h
      · rw [hacc] at h; cases h
      · exact h
    by_cases h1 : b < f p
    · simp [h1]
    · by_cases h2 : f p = b
      · simp [h1, h2, hacc]
      · simpa [h1, h2, hacc] using hne

theorem foldl_bestStep_ne_nil (f : Int × Endpoint → ℚ) (l : List (Int × Endpoint)) :
    ∀ acc : Option ℚ × List Int, (acc.1 = none ∨ acc.2 ≠ []) → (l ≠ [] ∨ acc.2 ≠ []) →
      (l.foldl (bestStep f) acc).2 ≠ [] := by
  induction l with
  | nil =>
    intro acc h1 h2
    exact h2.resolve_left (by simp)
  | cons p t ih =>
    intro acc h1 _
    have hstep := bestStep_ne f acc p h1
    simpa using ih (bestStep f acc p) (Or.inr hstep.2) (Or.inr hstep.2)

theorem foldl_bestStep_subset (f : Int × Endpoint → ℚ) (l : List (Int × Endpoint)) :
    ∀ acc : Option ℚ × List Int, ∀ i ∈ (l.foldl (bestStep f) acc).2,
      i ∈ acc.2 ∨ i ∈ l.map Prod.fst := by
  induction l with
  | nil =>
    intro acc i hi
    exact Or.inl (by simpa using hi)
  | cons p t ih =>
    intro acc i hi
    simp only [List.foldl_cons] at hi
    rcases ih (bestStep f acc p) i hi with h | h
    · unfold bestStep at h
      cases hacc : acc.1 with
      | none =>
        rw [hacc] at h
        simp only [List.mem_singleton] at h
        exact Or.inr (by simp [h])
      | some b =>
        rw [hacc] at h
        by_cases h1 : b < f p
        · simp only [if_pos h1, List.mem_singleton] at h
          exact Or.inr (by simp [h])
        · by_cases h2 : f p = b
          · simp only [if_neg h1, if_pos h2, List.mem_append, List.mem_singleton] at h
            rcases h with h | h
            · exact Or.inl h
            · exact Or.inr (by simp [h])
          · simp only [if_neg h1, if_neg h2] at h
            exact Or.inl h
    · exact Or.inr (by simp [h])

theorem getD_mem (l : List Int) (i : Nat) (d : Int) (h : i < l.length) :
    l.getD i d ∈ l := by
  induction l generalizing i with
  | nil => simp at h
  | cons p t ih =>
    cases i with
    | zero => simp
    | succ j =>
      simp only [List.getD_cons_succ]
      exact List.mem_cons_of_mem _ (ih j (by simpa using h))

theorem chooseWorker_mem (w : Int) (rest : List Int) (rng : Nat) :
    chooseWorker w rest rng ∈ w :: rest := by
  unfold chooseWorker
  by_cases h : rest = []
  · simp [h]
  · rw [if_neg h]
    exact getD_mem _ _ _ (Nat.mod_lt _ (by simp))

/-- C1: on a snapshot with at least one registered worker and a request with
positive `isl_tokens` (and non-negative configured weights), `select_worker`
succeeds, and whatever the random draw, the returned worker id is a key of the
snapshot's endpoint map. -/
theorem select_worker_ok_mem (cfg : KvRouterConfig) (workers : ProcessedEndpoints)
    (request : SchedulingRequest) (block_size rng : Nat)
    (hne : workers.endpoints ≠ []) (_hisl : 0 < request.isl_tokens)
    (_hw1 : 0 ≤ cfg.overlap_score_weight) (_hw2 : 0 ≤ cfg.gpu_cache_usage_weight)
    (_hw3 : 0 ≤ cfg.waiting_requests_weight) :
    ∃ r, select_worker cfg workers request block_size rng = .ok r ∧
      r.worker_id ∈ workers.endpoints.map Prod.fst := by
  unfold select_worker
  rw [if_neg (by simpa using hne)]
  cases hbw : (bestWorkers
      (logitOf cfg (workerScores request block_size workers.endpoints)
        (maxWaiting workers.endpoints)) workers.endpoints).2 with
  | nil =>
    exact absurd hbw
      (foldl_bestStep_ne_nil _ workers.endpoints (none, []) (Or.inl rfl) (Or.inl hne))
  | cons w rest =>
    refine ⟨_, rfl, ?_⟩
    have hmem : chooseWorker w rest rng ∈ w :: rest := chooseWorker_mem w rest rng
    rw [← hbw] at hmem
    rcases foldl_bestStep_subset _ workers.endpoints (none, []) _ hmem with h | h
    · cases h
    · exact h

theorem bestStep_none (f : Int × Endpoint → ℚ) (ws : List Int) (p : Int × Endpoint) :
    bestStep f (none, ws) p = (some (f p), [p.1]) := rfl

theorem bestStep_some (f : Int × Endpoint → ℚ) (b : ℚ) (ws : List Int) (p : Int × Endpoint) :
    bestStep f (some b, ws) p =
      if b < f p then (some (f p), [p.1])
      else if f p = b then (some b, ws ++ [p.1]) else (some b, ws) := rfl

theorem foldl_bestStep_lt (f : Int × Endpoint → ℚ) (l : List (Int × Endpoint))
    (b : ℚ) (ws : List Int) (h : ∀ p ∈ l, f p < b) :
    l.foldl (bestStep f) (some b, ws) = (some b, ws) := by
  induction l generalizing ws with
  | nil => rfl
  | cons p t ih =>
    have hp : f p < b := h p (List.mem_cons_self _ _)
    simp only [List.foldl_cons, bestStep_some, if_neg (not_lt_of_lt hp), if_neg (ne_of_lt hp)]
    exact ih ws fun q hq => h q (List.mem_cons_of_mem _ hq)

theorem foldl_bestStep_bound (f : Int × Endpoint → ℚ) (l : List (Int × Endpoint))
    (c : ℚ) (h : ∀ p ∈ l, f p < c) :
    ∀ acc : Option ℚ × List Int, (acc.1 = none ∨ ∃ b, acc.1 = some b ∧ b < c) →
      ((l.foldl (bestStep f) acc).1 = none ∨
        ∃ b, (l.foldl (bestStep f) acc).1 = some b ∧ b < c) := by
  induction l with
  | nil => intro acc hacc; exact hacc
  | cons p t ih =>
    rintro ⟨a1, ws⟩ hacc
    simp only [List.foldl_cons]
    have hp : f p < c := h p (List.mem_cons_self _ _)
    refine ih (fun q hq => h q (List.mem_cons_of_mem _ hq)) _ ?_
    cases a1 with
    | none =>
      rw [bestStep_none]
      exact Or.inr ⟨f p, rfl, hp⟩
    | some b =>
      have hb : b < c := by
        rcases hacc with hacc | ⟨b2, hacc2, hb2⟩
        · cases hacc
        · rw [Option.some.inj hacc2]; exact hb2
      rw [bestStep_some]
      by_cases h1 : b < f p
      · rw [if_pos h1]
        exact Or.inr ⟨f p, rfl, hp⟩
      · by_cases h2 : f p = b
        · rw [if_neg h1, if_pos h2]
          exact Or.inr ⟨b, rfl, hb⟩
        · rw [if_neg h1, if_neg h2]
          exact Or.inr ⟨b, rfl, hb⟩

theorem bestWorkers_unique_max (f : Int × Endpoint → ℚ)
    (l1 l2 : List (Int × Endpoint)) (w : Int × Endpoint)
    (h1 : ∀ p ∈ l1, f p < f w) (h2 : ∀ p ∈ l2, f p < f w) :
    bestWorkers f (l1 ++ w :: l2) = (some (f w), [w.1]) := by
  unfold bestWorkers
  rw [List.foldl_append, List.foldl_cons]
  have hb := foldl_bestStep_bound f l1 (f w) h1 (none, []) (Or.inl rfl)
  rcases hA : l1.foldl (bestStep f) (none, []) with ⟨a1, ws1⟩
  rw [hA] at hb
  cases a1 with
  | none =>
    rw [bestStep_none]
    exact foldl_bestStep_lt f l2 (f w) [w.1] h2
  | some b =>
    have hblt : b < f w := by
      rcases hb with hb | ⟨b2, hb2, hb3⟩
      · cases hb
      · rw [Option.some.inj hb2]; exact hb3
    rw [bestStep_some, if_pos hblt]
    exact foldl_bestStep_lt f l2 (f w) [w.1] h2

theorem keyed_mem_eq (l : List (Int × Endpoint))
    (h : (l.map Prod.fst).Nodup) (p q : Int × Endpoint)
    (hp : p ∈ l) (hq : q ∈ l) (hk : p.1 = q.1) : p = q := by
  induction l with
  | nil => cases hp
  | cons a t ih =>
    rw [List.map_cons, List.nodup_cons] at h
    rcases List.mem_cons.mp hp with hp1 | hp1 <;> rcases List.mem_cons.mp hq with hq1 | hq1
    · rw [hp1, hq1]
    · exact absurd (hk ▸ (List.mem_map_of_mem Prod.fst hq1)) (hp1 ▸ h.1)
    · exact absurd (hk ▸ (List.mem_map_of_mem Prod.fst hp1)) (hq1 ▸ h.1)
    · exact ih h.2 hp1 hq1

theorem select_worker_eps_unique (cfg : KvRouterConfig) (request : SchedulingRequest)
    (block_size : Nat) (l1 l2 : List (Int × Endpoint)) (w : Int × Endpoint)
    (h1 : ∀ p ∈ l1, workerLogit cfg request block_size (l1 ++ w :: l2) p <
      workerLogit cfg request block_size (l1 ++ w :: l2) w)
    (h2 : ∀ p ∈ l2, workerLogit cfg request block_size (l1 ++ w :: l2) p <
      workerLogit cfg request block_size (l1 ++ w :: l2) w) (rng : Nat) :
    select_worker cfg ⟨l1 ++ w :: l2⟩ request block_size rng =
      .ok ⟨w.1, max (request.isl_tokens / block_size) 1,
        (alookup w.1 request.overlap.scores).getD 0⟩ := by
  have hb := bestWorkers_unique_max
    (logitOf cfg (workerScores request block_size (l1 ++ w :: l2))
      (maxWaiting (l1 ++ w :: l2))) l1 l2 w h1 h2
  unfold select_worker
  rw [if_neg (by simp)]
  rw [hb]
  rfl

/-- C7: when one worker strictly dominates every other entry of the snapshot
in logit, `select_worker` is deterministic: the tied-best list is the
singleton of that worker, so the random tie-break draw is never consulted
(the result is the same for every value of the draw) and every call returns
that same worker id. -/
theorem select_worker_unique_max_deterministic (cfg : KvRouterConfig)
    (workers : ProcessedEndpoints) (request : SchedulingRequest) (block_size : Nat)
    (w : Int × Endpoint) (hmem : w ∈ workers.endpoints)
    (hnodup : (workers.endpoints.map Prod.fst).Nodup)
    (hmax : ∀ p ∈ workers.endpoints, p ≠ w →
      workerLogit cfg request block_size workers.endpoints p <
        workerLogit cfg request block_size workers.endpoints w) :
    ∃ r, (∀ rng, select_worker cfg workers request block_size rng = .ok r) ∧
      r.worker_id = w.1 := by
  obtain ⟨eps⟩ := workers
  change w ∈ eps at hmem
  change (eps.map Prod.fst).Nodup at hnodup
  obtain ⟨l1, l2, rfl⟩ := List.append_of_mem hmem
  rw [List.map_append, List.map_cons] at hnodup
  have hd := List.nodup_append.mp hnodup
  refine ⟨⟨w.1, max (request.isl_tokens / block_size) 1,
      (alookup w.1 request.overlap.scores).getD 0⟩,
    fun rng => select_worker_eps_unique cfg request block_size l1 l2 w ?_ ?_ rng, rfl⟩
  · intro p hp
    refine hmax p (List.mem_append_left _ hp) fun hpw => ?_
    exact hd.2.2 (hpw ▸ List.mem_map_of_mem Prod.fst hp) (List.mem_cons_self _ _)
  · intro p hp
    refine hmax p (List.mem_append_right _ (List.mem_cons_of_mem _ hp)) fun hpw => ?_
    exact (List.nodup_cons.mp hd.2.1).1 (hpw ▸ List.mem_map_of_mem Prod.fst hp)

theorem alookup_workerScores_none (request : SchedulingRequest) (block_size : Nat)
    (l : List (Int × Endpoint)) (k : Int) (hk : k ∉ l.map Prod.fst) :
    alookup k (workerScores request block_size l) = none := by
  induction l with
  | nil => rfl
  | cons p t ih =>
    rw [List.map_cons] at hk
    simp only [List.mem_cons, not_or] at hk
    simp only [workerScores, List.filterMap_cons] at ih ⊢
    cases hov : alookup p.1 request.overlap.scores with
    | none =>
      simp only [hov]
      exact ih hk.2
    | some s =>
      simp only [hov, alookup, if_neg (fun h : p.1 = k => hk.1 h.symm)]
      exact ih hk.2

theorem getD_alookup_workerScores (request : SchedulingRequest) (block_size : Nat)
    (l : List (Int × Endpoint)) (k : Int) (hmem : k ∈ l.map Prod.fst) :
    (alookup k (workerScores request block_size l)).getD 0 =
      ((alookup k request.overlap.scores).getD 0 : ℚ) * (block_size : ℚ) /
        (request.isl_tokens : ℚ) := by
  induction l with
  | nil => cases hmem
  | cons p t ih =>
    simp only [workerScores, List.filterMap_cons] at ih ⊢
    by_cases hk : p.1 = k
    · cases hov : alookup p.1 request.overlap.scores with
      | none =>
        have hnone : alookup k request.overlap.scores = none := hk ▸ hov
        simp only [hov]
        by_cases hmt : k ∈ t.map Prod.fst
        · rw [ih hmt, hnone]
        · have h0 := alookup_workerScores_none request block_size t k hmt
          simp only [workerScores] at h0
          rw [h0, hnone]
          simp
      | some s =>
        have hsome : alookup k request.overlap.scores = some s := hk ▸ hov
        simp only [hov, alookup, if_pos hk, hsome]
        rfl
    · have hmt : k ∈ t.map Prod.fst := by
        rw [List.map_cons] at hmem
        rcases List.mem_cons.mp hmem with h | h
        · exact absurd h.symm hk
        · exact h
      cases hov : alookup p.1 request.overlap.scores with
      | none =>
        simp only [hov]
        exact ih hmt
      | some s =>
        simp only [hov, alookup, if_neg hk]
        exact ih hmt

/-- The logit of an endpoint of the snapshot, written through the effective
overlap value `(alookup id overlap).getD 0` (an overlap entry of 0 and an
absent entry give the same score). -/
theorem workerLogit_eq (cfg : KvRouterConfig) (request : SchedulingRequest)
    (block_size : Nat) (l : List (Int × Endpoint)) (p : Int × Endpoint)
    (hmem : p.1 ∈ l.map Prod.fst) :
    workerLogit cfg request block_size l p =
      cfg.overlap_score_weight *
          (((alookup p.1 request.overlap.scores).getD 0 : ℚ) * (block_size : ℚ) /
            (request.isl_tokens : ℚ))
        - cfg.gpu_cache_usage_weight * p.2.data.gpu_cache_usage_perc
        - cfg.waiting_requests_weight *
            (if 0 < maxWaiting l then
              (p.2.data.num_requests_waiting : ℚ) / (maxWaiting l : ℚ) else 0) := by
  simp only [workerLogit, logitOf]
  rw [getD_alookup_workerScores request block_size l p.1 hmem]

/-- C6: with non-negative weights and all other workers\u2019 metrics and overlap
entries held fixed, raising one worker\u2019s effective overlap entry never
decreases that worker\u2019s logit; and if that worker attained the maximum logit
before the raise, it still attains it afterwards, so no distinct worker
(in particular none that was previously tied at the maximum) can end up with
a strictly greater logit and be preferred over it. -/
theorem overlap_monotonicity (cfg : KvRouterConfig) (workers : ProcessedEndpoints)
    (request : SchedulingRequest) (block_size : Nat) (o2 : OverlapScores)
    (w : Int × Endpoint)
    (hw1 : 0 ≤ cfg.overlap_score_weight) (_hw2 : 0 ≤ cfg.gpu_cache_usage_weight)
    (_hw3 : 0 ≤ cfg.waiting_requests_weight)
    (hisl : 0 < request.isl_tokens)
    (hmem : w ∈ workers.endpoints)
    (hnodup : (workers.endpoints.map Prod.fst).Nodup)
    (hincr : (alookup w.1 request.overlap.scores).getD 0 ≤ (alookup w.1 o2.scores).getD 0)
    (hoth : ∀ v, v ≠ w.1 → alookup v o2.scores = alookup v request.overlap.scores) :
    workerLogit cfg request block_size workers.endpoints w ≤
      workerLogit cfg ⟨request.isl_tokens, o2⟩ block_size workers.endpoints w ∧
    ((∀ p ∈ workers.endpoints,
        workerLogit cfg request block_size workers.endpoints p ≤
          workerLogit cfg request block_size workers.endpoints w) →
      ∀ p ∈ workers.endpoints,
        workerLogit cfg ⟨request.isl_tokens, o2⟩ block_size workers.endpoints p ≤
          workerLogit cfg ⟨request.isl_tokens, o2⟩ block_size workers.endpoints w) := by
  have hwk : w.1 ∈ workers.endpoints.map Prod.fst := List.mem_map_of_mem Prod.fst hmem
  have hmono : workerLogit cfg request block_size workers.endpoints w ≤
      workerLogit cfg ⟨request.isl_tokens, o2⟩ block_size workers.endpoints w := by
    rw [workerLogit_eq cfg request block_size workers.endpoints w hwk,
      workerLogit_eq cfg ⟨request.isl_tokens, o2⟩ block_size workers.endpoints w hwk]
    have hstep : (((alookup w.1 request.overlap.scores).getD 0 : ℚ) * (block_size : ℚ) /
          (request.isl_tokens : ℚ)) ≤
        (((alookup w.1 o2.scores).getD 0 : ℚ) * (block_size : ℚ) / (request.isl_tokens : ℚ)) := by
      have hc : (0 : ℚ) < (request.isl_tokens : ℚ) := by exact_mod_cast hisl
      have hnum : (((alookup w.1 request.overlap.scores).getD 0 : ℚ) * (block_size : ℚ)) ≤
          (((alookup w.1 o2.scores).getD 0 : ℚ) * (block_size : ℚ)) := by
        have : (((alookup w.1 request.overlap.scores).getD 0 : ℚ)) ≤
            (((alookup w.1 o2.scores).getD 0 : ℚ)) := by exact_mod_cast hincr
        exact mul_le_mul_of_nonneg_right this (by positivity)
      exact div_le_div_of_nonneg_right hnum hc.le
    have := mul_le_mul_of_nonneg_left hstep hw1
    linarith
  refine ⟨hmono, fun hmax p hp => ?_⟩
  by_cases hpw : p = w
  · rw [hpw]
  · have hpk : p.1 ≠ w.1 := fun hk => hpw (keyed_mem_eq workers.endpoints hnodup p w hp hmem hk)
    have hpfix : workerLogit cfg ⟨request.isl_tokens, o2⟩ block_size workers.endpoints p =
        workerLogit cfg request block_size workers.endpoints p := by
      rw [workerLogit_eq cfg request block_size workers.endpoints p
          (List.mem_map_of_mem Prod.fst hp),
        workerLogit_eq cfg ⟨request.isl_tokens, o2⟩ block_size workers.endpoints p
          (List.mem_map_of_mem Prod.fst hp)]
      rw [show alookup p.1 (⟨request.isl_tokens, o2⟩ : SchedulingRequest).overlap.scores =
        alookup p.1 request.overlap.scores from hoth p.1 hpk]
    rw [hpfix]
    exact le_trans (hmax p hp) hmono

/-! Concrete data for the witnesses: a two-worker snapshot (worker 1 idle,
worker 2 with four waiting requests) and a request of 100 tokens with an
overlap of 8 blocks on worker 1 only, block size 16, all weights 1. -/

def epA : Endpoint := ⟨"w1", "subject-1", ⟨0, 0, 0⟩⟩

def epB : Endpoint := ⟨"w2", "subject-2", ⟨4, 0, 0⟩⟩

def snapAB : ProcessedEndpoints := ⟨[(1, epA), (2, epB)]⟩

def reqAB : SchedulingRequest := ⟨100, ⟨[(1, 8)]⟩⟩

def cfg111 : KvRouterConfig := ⟨1, 1, 1⟩

def o2AB : OverlapScores := ⟨[(1, 12)]⟩

def selB : WorkerSelectionResult := ⟨2, 5, 9⟩

def snapAB2 : ProcessedEndpoints := ⟨[(1, epA), (2, applySelection selB epB)]⟩

/-- A selector that reports `AllWorkersBusy` while the snapshot is empty and
otherwise defers to the default selector. -/
def busySel (s : ProcessedEndpoints) (r : SchedulingRequest) :
    Except KvSchedulerError WorkerSelectionResult :=
  if s.endpoints.isEmpty then .error .AllWorkersBusy else select_worker cfg111 s r 16 0

/-- The default selector at the witness configuration. -/
def defaultSel (s : ProcessedEndpoints) (r : SchedulingRequest) :
    Except KvSchedulerError WorkerSelectionResult :=
  select_worker cfg111 s r 16 0

theorem select_worker_ok_mem_witness :
    (snapAB.endpoints ≠ [] ∧ 0 < reqAB.isl_tokens ∧
      (0:ℚ) ≤ cfg111.overlap_score_weight ∧ (0:ℚ) ≤ cfg111.gpu_cache_usage_weight ∧
      (0:ℚ) ≤ cfg111.waiting_requests_weight) ∧
    ∃ r, select_worker cfg111 snapAB reqAB 16 3 = .ok r ∧
      r.worker_id ∈ snapAB.endpoints.map Prod.fst :=
  ⟨⟨by decide, by decide, by norm_num [cfg111], by norm_num [cfg111], by norm_num [cfg111]⟩,
    select_worker_ok_mem cfg111 snapAB reqAB 16 3 (by decide) (by decide)
      (by norm_num [cfg111]) (by norm_num [cfg111]) (by norm_num [cfg111])⟩

theorem process_worker_selection_mutation_witness :
    (alookup 1 snapAB.endpoints = some epA ∧
      epA.data.num_requests_waiting + 1 < U64LIMIT ∧
      epA.data.kv_active_blocks + ((10:Nat) - 3) < U64LIMIT) ∧
    ∃ workers2 ev,
      process_worker_selection snapAB ⟨1, 10, 3⟩ = some (workers2, (1:Int), ev) ∧
      alookup 1 workers2.endpoints = some (applySelection ⟨1, 10, 3⟩ epA) ∧
      (applySelection ⟨1, 10, 3⟩ epA).data.num_requests_waiting =
        epA.data.num_requests_waiting + 1 ∧
      ((applySelection ⟨1, 10, 3⟩ epA).data.kv_active_blocks : ℤ) =
        (epA.data.kv_active_blocks : ℤ) + max 0 ((10:ℤ) - 3) :=
  ⟨⟨rfl, by decide, by decide⟩,
    process_worker_selection_mutation snapAB ⟨1, 10, 3⟩ epA rfl (by decide) (by decide)⟩

theorem select_worker_result_fields_witness :
    (0 < (16:Nat) ∧ select_worker cfg111 snapAB reqAB 16 0 = .ok ⟨1, 6, 8⟩) ∧
    (6:Nat) = max 1 (reqAB.isl_tokens / 16) ∧
    (8:Nat) = (alookup (1:Int) reqAB.overlap.scores).getD 0 := by
  have h : select_worker cfg111 snapAB reqAB 16 0 = .ok ⟨1, 6, 8⟩ := by
    norm_num [select_worker, bestWorkers, bestStep, logitOf, workerScores, maxWaiting,
      alookup, chooseWorker, snapAB, epA, epB, reqAB, cfg111]
  have hc := select_worker_result_fields cfg111 snapAB reqAB 16 0 ⟨1, 6, 8⟩ (by decide) h
  exact ⟨⟨by decide, h⟩, hc.1, hc.2⟩

theorem dispatchLoop_busy_retries_witness :
    busySel ⟨[]⟩ reqAB = .error .AllWorkersBusy ∧
    dispatchLoop busySel ⟨[]⟩ [snapAB] reqAB = dispatchLoop busySel snapAB [] reqAB :=
  ⟨rfl, dispatchLoop_busy_retries busySel ⟨[]⟩ snapAB [] reqAB rfl⟩

theorem dispatchLoop_fatal_terminates_witness :
    (defaultSel ⟨[]⟩ reqAB = .error .NoEndpoints ∧
      KvSchedulerError.NoEndpoints ≠ KvSchedulerError.AllWorkersBusy) ∧
    dispatchLoop defaultSel ⟨[]⟩ [snapAB] reqAB = .terminated ∧
    (∀ response, schedule false response = .error .SubscriberShutdown) ∧
    schedule true none = .error .SubscriberShutdown :=
  ⟨⟨rfl, by decide⟩,
    dispatchLoop_fatal_terminates defaultSel ⟨[]⟩ [snapAB] reqAB .NoEndpoints rfl (by decide)⟩

theorem overlap_monotonicity_witness :
    ((0:ℚ) ≤ cfg111.overlap_score_weight ∧ (0:ℚ) ≤ cfg111.gpu_cache_usage_weight ∧
      (0:ℚ) ≤ cfg111.waiting_requests_weight ∧ 0 < reqAB.isl_tokens ∧
      (1, epA) ∈ snapAB.endpoints ∧ (snapAB.endpoints.map Prod.fst).Nodup ∧
      (alookup 1 reqAB.overlap.scores).getD 0 ≤ (alookup 1 o2AB.scores).getD 0) ∧
    (workerLogit cfg111 reqAB 16 snapAB.endpoints (1, epA) ≤
      workerLogit cfg111 ⟨reqAB.isl_tokens, o2AB⟩ 16 snapAB.endpoints (1, epA) ∧
    ((∀ p ∈ snapAB.endpoints,
        workerLogit cfg111 reqAB 16 snapAB.endpoints p ≤
          workerLogit cfg111 reqAB 16 snapAB.endpoints (1, epA)) →
      ∀ p ∈ snapAB.endpoints,
        workerLogit cfg111 ⟨reqAB.isl_tokens, o2AB⟩ 16 snapAB.endpoints p ≤
          workerLogit cfg111 ⟨reqAB.isl_tokens, o2AB⟩ 16 snapAB.endpoints (1, epA))) := by
  have hoth : ∀ v, v ≠ (1:Int) → alookup v o2AB.scores = alookup v reqAB.overlap.scores := by
    intro v hv
    simp only [o2AB, reqAB, alookup, if_neg (fun h : (1:Int) = v => hv h.symm)]
  refine ⟨⟨by norm_num [cfg111], by norm_num [cfg111], by norm_num [cfg111], by decide,
    List.mem_cons_self _ _, by decide, by decide⟩, ?_⟩
  exact overlap_monotonicity cfg111 snapAB reqAB 16 o2AB (1, epA)
    (by norm_num [cfg111]) (by norm_num [cfg111]) (by norm_num [cfg111]) (by decide)
    (List.mem_cons_self _ _) (by decide) (by decide) hoth

theorem select_worker_unique_max_deterministic_witness :
    ((1, epA) ∈ snapAB.endpoints ∧ (snapAB.endpoints.map Prod.fst).Nodup ∧
      (∀ p ∈ snapAB.endpoints, p ≠ (1, epA) →
        workerLogit cfg111 reqAB 16 snapAB.endpoints p <
          workerLogit cfg111 reqAB 16 snapAB.endpoints (1, epA))) ∧
    ∃ r, (∀ rng, select_worker cfg111 snapAB reqAB 16 rng = .ok r) ∧
      r.worker_id = (1:Int) := by
  have hmax : ∀ p ∈ snapAB.endpoints, p ≠ (1, epA) →
      workerLogit cfg111 reqAB 16 snapAB.endpoints p <
        workerLogit cfg111 reqAB 16 snapAB.endpoints (1, epA) := by
    intro p hp hne
    fin_cases hp
    · simp at hne
    · norm_num [workerLogit, logitOf, workerScores, maxWaiting, alookup, snapAB, epA, epB,
        reqAB, cfg111]
  exact ⟨⟨List.mem_cons_self _ _, by decide, hmax⟩,
    select_worker_unique_max_deterministic cfg111 snapAB reqAB 16 (1, epA)
      (List.mem_cons_self _ _) (by decide) hmax⟩

theorem process_worker_selection_frame_witness :
    process_worker_selection snapAB selB = some (snapAB2, 2, ⟨2, 5, 9⟩) ∧
    ((2:Int) = selB.worker_id ∧
      (∀ k, k ≠ selB.worker_id → alookup k snapAB2.endpoints = alookup k snapAB.endpoints) ∧
      alookup selB.worker_id snapAB2.endpoints =
        (alookup selB.worker_id snapAB.endpoints).map (applySelection selB) ∧
      (∀ e, (applySelection selB e).name = e.name ∧
        (applySelection selB e).subject = e.subject ∧
        (applySelection selB e).data.gpu_cache_usage_perc = e.data.gpu_cache_usage_perc)) :=
  ⟨rfl, process_worker_selection_frame snapAB snapAB2 selB 2 ⟨2, 5, 9⟩ rfl⟩

end KvRouter
